import Mathlib

/-!
Verification of the FIBreview list-view engine (filter predicate, sort
comparator, pagination window, page clamp) as implemented in the Home page
component and its Pagination subcomponent.

Modelling choices for the shallow embedding of the TypeScript source:
- JS numbers that can be `Infinity` (filter bounds) are `WithTop ℚ`;
  course attribute values are `Option ℚ` (`none` is the JS `null`).
- A user-entered bound held in component state is `Option ℚ`, where `none`
  stands for both `undefined` (never entered) and `NaN` (failed parse):
  the two behave identically in every use site (both are falsy in `||`).
- The JS `x || default` idiom on a bound is `jsOr`: it falls back on
  `none` (undefined/NaN) and on `some 0` (0 is falsy in JS).
- `localeCompare` on names is modelled as the lexicographic three-way
  comparison `strCompare` derived from the linear order on `String`.
- `Array.prototype.sort`, which ECMAScript requires to be stable, is
  modelled by `List.mergeSort`, a stable merge sort, with the comparator
  translated to the boolean relation `comparator result ≤ 0`.
-/

/-- A course record as consumed by the Home page: aggregate review fields
are nullable numbers, flags are booleans. -/
structure Course where
  id : String
  name : String
  rating : Option ℚ
  difficulty : Option ℚ
  workload : Option ℚ
  reviewCount : Option ℚ
  isDeprecated : Bool
  isFoundational : Bool
deriving DecidableEq

/-- Embedding of the local helper in the Home filter predicate:
`value === null ? true : value >= min && value <= max`. -/
def between (value : Option ℚ) (min max : WithTop ℚ) : Bool :=
  match value with
  | none => true
  | some v => decide (min ≤ (v : WithTop ℚ) ∧ (v : WithTop ℚ) ≤ max)

/-- Embedding of the JS `bound || default` idiom used in the Home filter:
an `undefined` or `NaN` bound (modelled as `none`) and a bound of `0` are
falsy, so the domain default is used instead. -/
def jsOr (bound : Option ℚ) (default : WithTop ℚ) : WithTop ℚ :=
  match bound with
  | none => default
  | some v => if v = 0 then default else (v : WithTop ℚ)

/-- The mutable filter state of the Home component: one optional min and
max per numeric attribute plus the two toggles. -/
structure FilterCriteria where
  minReviewCount : Option ℚ
  maxReviewCount : Option ℚ
  minRating : Option ℚ
  maxRating : Option ℚ
  minDifficulty : Option ℚ
  maxDifficulty : Option ℚ
  minWorkload : Option ℚ
  maxWorkload : Option ℚ
  hideDeprecated : Bool
  onlyShowFoundational : Bool
deriving DecidableEq

/-- The Home filter predicate, line by line from the `courses.filter`
callback: four range checks with `||`-defaulted bounds
(reviewCount 0..Infinity, rating 1..5, difficulty 1..5, workload 1..100)
and the two toggle gates. -/
def admitCourse (crit : FilterCriteria) (c : Course) : Bool :=
  between c.reviewCount (jsOr crit.minReviewCount ((0 : ℚ) : WithTop ℚ)) (jsOr crit.maxReviewCount ⊤) &&
  between c.rating (jsOr crit.minRating ((1 : ℚ) : WithTop ℚ)) (jsOr crit.maxRating ((5 : ℚ) : WithTop ℚ)) &&
  between c.difficulty (jsOr crit.minDifficulty ((1 : ℚ) : WithTop ℚ)) (jsOr crit.maxDifficulty ((5 : ℚ) : WithTop ℚ)) &&
  between c.workload (jsOr crit.minWorkload ((1 : ℚ) : WithTop ℚ)) (jsOr crit.maxWorkload ((100 : ℚ) : WithTop ℚ)) &&
  (if crit.hideDeprecated then c.isDeprecated == false else true) &&
  (if crit.onlyShowFoundational then c.isFoundational == true else true)

/-- The filtered collection: `courses.filter(...)`. -/
def filteredCourses (crit : FilterCriteria) (courses : List Course) : List Course :=
  courses.filter (admitCourse crit)

/-- The filter state on mount: every bound `undefined` except
`minReviewCount`, which `useState<number>(1)` initialises to 1; both
toggles start false. -/
def initialCriteria : FilterCriteria :=
  { minReviewCount := some 1
    maxReviewCount := none
    minRating := none
    maxRating := none
    minDifficulty := none
    maxDifficulty := none
    minWorkload := none
    maxWorkload := none
    hideDeprecated := false
    onlyShowFoundational := false }

/-- The sortable attributes of the Home table. -/
inductive SortAttribute where
  | name
  | rating
  | difficulty
  | workload
  | reviewCount
deriving DecidableEq

/-- Sort direction. -/
inductive SortDirection where
  | asc
  | desc
deriving DecidableEq

/-- The SortConfig state of the Home component; the field `attr` is the
source's `attribute` (a reserved word here). -/
structure SortConfig where
  attr : SortAttribute
  direction : SortDirection
deriving DecidableEq

/-- The sort state on mount: `{ attribute: "reviewCount", direction: "desc" }`. -/
def defaultSort : SortConfig :=
  { attr := SortAttribute.reviewCount, direction := SortDirection.desc }

/-- Numeric attribute access `course[attribute]` for the four nullable
numeric attributes; `name` is handled separately by the comparator. -/
def numVal : SortAttribute → Course → Option ℚ
  | SortAttribute.rating, c => c.rating
  | SortAttribute.difficulty, c => c.difficulty
  | SortAttribute.workload, c => c.workload
  | SortAttribute.reviewCount, c => c.reviewCount
  | SortAttribute.name, _ => none

/-- Model of `a.localeCompare(b)` as a three-way comparison under the
linear order on strings. -/
def strCompare (a b : String) : ℚ :=
  if a < b then -1 else if b < a then 1 else 0

/-- The numeric branch of the Home sort comparator:
`a[attribute] === null` gives 1, else `b[attribute] === null` gives -1,
else `(a[attribute] - b[attribute]) * ordering`. -/
def numCompare (ordering : ℚ) (x y : Option ℚ) : ℚ :=
  match x, y with
  | none, _ => 1
  | some _, none => -1
  | some a, some b => (a - b) * ordering

/-- The Home sort comparator: `ordering` is 1 for asc and -1 for desc;
the name attribute uses `localeCompare` times `ordering`; numeric
attributes use `numCompare`. -/
def compareCourses (config : SortConfig) (a b : Course) : ℚ :=
  let ordering : ℚ := if config.direction = SortDirection.asc then 1 else -1
  match config.attr with
  | SortAttribute.name => strCompare a.name b.name * ordering
  | attr => numCompare ordering (numVal attr a) (numVal attr b)

/-- The comparator as a boolean precedence relation for the stable sort:
`a` may come before `b` exactly when the comparator result is not
positive. -/
def courseLE (config : SortConfig) (a b : Course) : Bool :=
  decide (compareCourses config a b ≤ 0)

/-- The sorted collection `filtered.sort(comparator)`, with the
ECMAScript-mandated stable sort modelled by `List.mergeSort`. -/
def sortCourses (config : SortConfig) (l : List Course) : List Course :=
  l.mergeSort (courseLE config)

/-- Whether the sort key of a course is absent under the given config
(never the case for the name attribute). -/
def keyAbsent (config : SortConfig) (c : Course) : Bool :=
  match config.attr with
  | SortAttribute.name => false
  | attr => (numVal attr c).isNone

/-- The `current` collection of the Home component:
`courses.filter(...).sort(...)`. -/
def currentCourses (crit : FilterCriteria) (config : SortConfig) (courses : List Course) : List Course :=
  sortCourses config (filteredCourses crit courses)

/-- The page-window calculation of the Pagination component
(`paginationChunks`), branch for branch from the source. -/
def paginationChunks (totalPages pageNumber : ℕ) : List (List ℕ) :=
  if totalPages ≤ 7 then
    [List.range totalPages]
  else if pageNumber ≤ 3 then
    [[0, 1, 2, 3, 4], [totalPages - 1]]
  else if totalPages - pageNumber ≤ 4 then
    [[0], [5, 4, 3, 2, 1].map (fun v => totalPages - v)]
  else
    [[0], [pageNumber - 1, pageNumber, pageNumber + 1], [totalPages - 1]]

/-- Modelled from the spec: the four-case page-window policy of section
4.4, written exactly as the spec lists the groups. -/
def specWindow (totalPages pageNumber : ℕ) : List (List ℕ) :=
  if totalPages ≤ 7 then
    [List.range totalPages]
  else if pageNumber ≤ 3 then
    [[0, 1, 2, 3, 4], [totalPages - 1]]
  else if totalPages - pageNumber ≤ 4 then
    [[0], [totalPages - 5, totalPages - 4, totalPages - 3, totalPages - 2, totalPages - 1]]
  else
    [[0], [pageNumber - 1, pageNumber, pageNumber + 1], [totalPages - 1]]

/-- The page-clamp effect of the Home component:
`if (pageSize * pageNumber >= current.length) setPageNumber(Math.floor(current.length / pageSize))`. -/
def clampStep (pageNumber pageSize len : ℕ) : ℕ :=
  if pageSize * pageNumber ≥ len then len / pageSize else pageNumber

/-- Fixture: a course with one review and no stats. -/
def plainCourse : Course :=
  { id := "CS-6035", name := "Intro", rating := none, difficulty := none,
    workload := none, reviewCount := some 1, isDeprecated := false,
    isFoundational := false }

/-- Fixture: a course with no reviews at all. -/
def zeroReviewCourse : Course :=
  { id := "CS-6000", name := "Fresh", rating := none, difficulty := none,
    workload := none, reviewCount := some 0, isDeprecated := false,
    isFoundational := false }

/-- Fixture: first of two courses with an absent rating. -/
def unratedA : Course :=
  { id := "CS-0001", name := "Alpha", rating := none, difficulty := none,
    workload := none, reviewCount := some 0, isDeprecated := false,
    isFoundational := false }

/-- Fixture: second of two courses with an absent rating. -/
def unratedB : Course :=
  { id := "CS-0002", name := "Beta", rating := none, difficulty := none,
    workload := none, reviewCount := some 0, isDeprecated := false,
    isFoundational := false }

/-- Fixture: first of two courses with the same present rating. -/
def ratedA : Course :=
  { id := "CS-0003", name := "GammaA", rating := some 4, difficulty := some 2,
    workload := some 10, reviewCount := some 3, isDeprecated := false,
    isFoundational := false }

/-- Fixture: second of two courses with the same present rating. -/
def ratedB : Course :=
  { id := "CS-0004", name := "GammaB", rating := some 4, difficulty := some 3,
    workload := some 12, reviewCount := some 5, isDeprecated := false,
    isFoundational := false }

/-- Fixture: a course with a present rating, used against an unrated one. -/
def ratedC : Course :=
  { id := "CS-0005", name := "Delta", rating := some 3, difficulty := some 3,
    workload := some 9, reviewCount := some 7, isDeprecated := false,
    isFoundational := false }

/-- Precedence relation capturing the shape of a merge-sorted list under a
comparator with an absorbing null class: a later element either has an
absent key or is reachable by the boolean order from the earlier one. -/
def nullsLastKey {α : Type} (le : α → α → Bool) (N : α → Bool) (x y : α) : Prop :=
  N y = true ∨ le x y = true

/-- Claim C4: a null attribute value passes the range filter whatever the
bounds are. -/
theorem c4_null_passes_range_filter (min max : WithTop ℚ) :
    between none min max = true :=
  rfl

/-- Claim C2: for every page count and page number the source's
paginationChunks agrees with the spec's four-case page-window policy, and
in particular window(10, 5) is the groups [0], [4,5,6], [9]. -/
theorem c2_pagination_window_policy :
    (∀ totalPages pageNumber : ℕ,
      paginationChunks totalPages pageNumber = specWindow totalPages pageNumber) ∧
    paginationChunks 10 5 = [[0], [4, 5, 6], [9]] := by
  constructor
  · intro totalPages pageNumber
    unfold paginationChunks specWindow
    rfl
  · rfl

/-- Claim C8 counterexample: at totalPages = 0 the window is not the empty
list of groups. -/
theorem c8_counterexample : ¬ paginationChunks 0 0 = ([] : List (List ℕ)) := by
  decide

/-- Claim C8 as amended: at totalPages = 0 the window is one single empty
group, so it shows no page indices at all (its concatenation is empty),
but the list of groups itself is a one-element list. -/
theorem c8_amended (pageNumber : ℕ) :
    paginationChunks 0 pageNumber = [[]] ∧
    (paginationChunks 0 pageNumber).flatten = [] := by
  exact ⟨rfl, rfl⟩

/-- Claim C5: membership in the filtered collection is exactly the
conjunction of the four effective range checks and the two active toggle
constraints. -/
theorem c5_filter_characterisation (crit : FilterCriteria) (courses : List Course) (c : Course) :
    c ∈ filteredCourses crit courses ↔
      c ∈ courses ∧
      between c.reviewCount (jsOr crit.minReviewCount ((0 : ℚ) : WithTop ℚ)) (jsOr crit.maxReviewCount ⊤) = true ∧
      between c.rating (jsOr crit.minRating ((1 : ℚ) : WithTop ℚ)) (jsOr crit.maxRating ((5 : ℚ) : WithTop ℚ)) = true ∧
      between c.difficulty (jsOr crit.minDifficulty ((1 : ℚ) : WithTop ℚ)) (jsOr crit.maxDifficulty ((5 : ℚ) : WithTop ℚ)) = true ∧
      between c.workload (jsOr crit.minWorkload ((1 : ℚ) : WithTop ℚ)) (jsOr crit.maxWorkload ((100 : ℚ) : WithTop ℚ)) = true ∧
      (crit.hideDeprecated = true → c.isDeprecated = false) ∧
      (crit.onlyShowFoundational = true → c.isFoundational = true) := by
  simp only [filteredCourses, List.mem_filter, admitCourse, Bool.and_eq_true]
  cases h1 : crit.hideDeprecated <;> cases h2 : crit.onlyShowFoundational <;>
    simp [h1, h2, and_assoc]

/-- Claim C9: the freshly mounted state sets the minimum review-count
bound to 1 (not the domain default 0), and with those default criteria
every course whose reviewCount is 0 is excluded from the filtered
result. -/
theorem c9_initial_min_review_count :
    initialCriteria.minReviewCount = some 1 ∧
    ∀ (courses : List Course) (c : Course),
      c.reviewCount = some 0 → c ∉ filteredCourses initialCriteria courses := by
  refine ⟨rfl, ?_⟩
  intro courses c h hmem
  have hadm := (List.mem_filter.mp hmem).2
  norm_num [admitCourse, between, jsOr, h, initialCriteria, WithTop.coe_le_coe] at hadm
  exact absurd hadm.1.1.1 (by decide)

/-- Claim C7: a bound that failed to parse (modelled as none, like an
untouched bound) contributes the attribute's domain default, never zero:
with every bound unparsed the predicate is exactly the domain-default
filter (reviewCount 0..unbounded, rating 1..5, difficulty 1..5, workload
1..100), and for each single attribute an unparsed bound is
interchangeable with its explicit domain default. -/
theorem c7_unparsed_bound_falls_back :
    (∀ default, jsOr none default = default) ∧
    (∀ (crit : FilterCriteria) (c : Course),
      admitCourse { crit with
              minReviewCount := none, maxReviewCount := none,
              minRating := none, maxRating := none,
              minDifficulty := none, maxDifficulty := none,
              minWorkload := none, maxWorkload := none } c =
        (between c.reviewCount ((0 : ℚ) : WithTop ℚ) ⊤ &&
         between c.rating ((1 : ℚ) : WithTop ℚ) ((5 : ℚ) : WithTop ℚ) &&
         between c.difficulty ((1 : ℚ) : WithTop ℚ) ((5 : ℚ) : WithTop ℚ) &&
         between c.workload ((1 : ℚ) : WithTop ℚ) ((100 : ℚ) : WithTop ℚ) &&
         (if crit.hideDeprecated then c.isDeprecated == false else true) &&
         (if crit.onlyShowFoundational then c.isFoundational == true else true))) ∧
    (∀ (crit : FilterCriteria) (c : Course),
      admitCourse { crit with minRating := none } c = admitCourse { crit with minRating := some 1 } c) ∧
    (∀ (crit : FilterCriteria) (c : Course),
      admitCourse { crit with maxRating := none } c = admitCourse { crit with maxRating := some 5 } c) ∧
    (∀ (crit : FilterCriteria) (c : Course),
      admitCourse { crit with minDifficulty := none } c = admitCourse { crit with minDifficulty := some 1 } c) ∧
    (∀ (crit : FilterCriteria) (c : Course),
      admitCourse { crit with maxDifficulty := none } c = admitCourse { crit with maxDifficulty := some 5 } c) ∧
    (∀ (crit : FilterCriteria) (c : Course),
      admitCourse { crit with minWorkload := none } c = admitCourse { crit with minWorkload := some 1 } c) ∧
    (∀ (crit : FilterCriteria) (c : Course),
      admitCourse { crit with maxWorkload := none } c = admitCourse { crit with maxWorkload := some 100 } c) ∧
    (∀ (crit : FilterCriteria) (c : Course),
      admitCourse { crit with minReviewCount := none } c = admitCourse { crit with minReviewCount := some 0 } c) := by
  refine ⟨fun _ => rfl, ?_, ?_, ?_, ?_, ?_, ?_, ?_, ?_⟩ <;>
    intro crit c <;> norm_num [admitCourse, jsOr]

/-- Claim C10: a bound whose parsed value is exactly 0 is falsy and so
behaves like an absent bound; in particular a max rating of 0 is the same
as no max rating, whose effective bound is the domain default 5. -/
theorem c10_zero_bound_is_absent :
    (∀ default, jsOr (some 0) default = default) ∧
    (∀ (crit : FilterCriteria) (c : Course),
      admitCourse { crit with maxRating := some 0 } c = admitCourse { crit with maxRating := none } c) ∧
    jsOr (some 0) ((5 : ℚ) : WithTop ℚ) = ((5 : ℚ) : WithTop ℚ) := by
  refine ⟨fun d => by norm_num [jsOr], ?_, by norm_num [jsOr]⟩
  intro crit c
  norm_num [admitCourse, jsOr]

/-- Claim C1 counterexample: with 20 courses passing the default filter,
page size 10 and page number 2, the recompute-and-clamp step leaves the
page number at 2 and the invariant pageNumber*pageSize < max(len, 1)
fails (20 < 20 is false). -/
theorem c1_counterexample :
    ¬ clampStep 2 10 (filteredCourses initialCriteria (List.replicate 20 plainCourse)).length * 10 <
        max (filteredCourses initialCriteria (List.replicate 20 plainCourse)).length 1 := by
  decide

/-- Claim C1 as amended: after the clamp step the weaker invariant
pageNumber*pageSize ≤ max(len, 1) holds; when the current page starts at
or beyond the end of the filtered collection the page number is set to
floor(len / pageSize); the strict invariant pageNumber*pageSize <
max(len, 1) holds whenever pageSize does not divide the filtered length
(it fails exactly when the clamp fires on a page size dividing a
non-zero length); and the spec's worked example (length 15, page size
10, page number 2) clamps to page 1. -/
theorem c1_amended (crit : FilterCriteria) (courses : List Course) (pageSize pageNumber : ℕ) :
    clampStep pageNumber pageSize (filteredCourses crit courses).length * pageSize ≤
      max (filteredCourses crit courses).length 1 ∧
    (pageSize * pageNumber ≥ (filteredCourses crit courses).length →
      clampStep pageNumber pageSize (filteredCourses crit courses).length =
        (filteredCourses crit courses).length / pageSize) ∧
    (¬ pageSize ∣ (filteredCourses crit courses).length →
      clampStep pageNumber pageSize (filteredCourses crit courses).length * pageSize <
        max (filteredCourses crit courses).length 1) ∧
    clampStep 2 10 15 = 1 := by
  generalize (filteredCourses crit courses).length = len
  refine ⟨?_, ?_, ?_, rfl⟩
  · rw [clampStep]
    split
    · exact le_trans (Nat.div_mul_le_self len pageSize) (le_max_left len 1)
    · rename_i h
      rw [not_le] at h
      exact le_trans (le_of_lt (by rw [mul_comm]; exact h)) (le_max_left len 1)
  · intro h
    rw [clampStep, if_pos h]
  · intro hdvd
    have hlen : 1 ≤ len := by
      rcases Nat.eq_zero_or_pos len with h0 | h1
      · exact absurd (h0 ▸ Dvd.dvd.mul_left (dvd_refl 0) 0) (by simp [h0] at hdvd)
      · exact h1
    rw [clampStep]
    split
    · have hle : len / pageSize * pageSize ≤ len := Nat.div_mul_le_self len pageSize
      have hne : len / pageSize * pageSize ≠ len := by
        intro heq
        exact hdvd (Dvd.intro (len / pageSize) (by rw [mul_comm]; exact heq))
      exact lt_of_lt_of_le (lt_of_le_of_ne hle hne) (le_max_left len 1)
    · rename_i h
      rw [not_le] at h
      exact lt_of_lt_of_le (by rw [mul_comm]; exact h) (le_max_left len 1)

/-- Claim C1 witness for the amended strict clause: one course passes the
default filter, 10 does not divide 1, and the clamped page 2 at page size
10 satisfies the strict invariant. -/
theorem c1_witness :
    clampStep 2 10 (filteredCourses initialCriteria [plainCourse]).length * 10 <
      max (filteredCourses initialCriteria [plainCourse]).length 1 :=
  (c1_amended initialCriteria [plainCourse] 10 2).2.2.1 (by decide)

/-- Claim C3: for a numeric sort attribute, a record with an absent value
compares after a record with a present value in both directions: the
comparator returns a positive result on (absent, present) and a negative
result on (present, absent), with the direction multiplier never touching
these branches. -/
theorem c3_null_ranks_last (a b : Course) (attr : SortAttribute) (dir : SortDirection) (v : ℚ)
    (hattr : attr ≠ SortAttribute.name)
    (ha : numVal attr a = none) (hb : numVal attr b = some v) :
    0 < compareCourses ⟨attr, dir⟩ a b ∧ compareCourses ⟨attr, dir⟩ b a < 0 := by
  cases attr <;>
    first
      | exact absurd rfl hattr
      | cases dir <;> simp_all [compareCourses, numCompare, numVal]

/-- Claim C3 witness: an unrated course against one rated 3.0 under the
descending rating sort. -/
theorem c3_witness :
    0 < compareCourses ⟨SortAttribute.rating, SortDirection.desc⟩ unratedA ratedC ∧
    compareCourses ⟨SortAttribute.rating, SortDirection.desc⟩ ratedC unratedA < 0 :=
  c3_null_ranks_last unratedA ratedC SortAttribute.rating SortDirection.desc 3
    (by decide) rfl rfl

/-- Elements taken from the left input of a merge keep their relative
order: the left input is a sublist of the merge. -/
theorem sublist_merge_left {α : Type} (le : α → α → Bool) :
    ∀ (xs ys : List α), List.Sublist xs (List.merge xs ys le)
  | [], ys => by simp
  | x :: xs, [] => by simp
  | x :: xs, y :: ys => by
    rw [List.cons_merge_cons]
    split
    · exact (sublist_merge_left le xs (y :: ys)).cons₂ x
    · exact (sublist_merge_left le (x :: xs) ys).cons y
termination_by xs ys => xs.length + ys.length

/-- Elements taken from the right input of a merge keep their relative
order: the right input is a sublist of the merge. -/
theorem sublist_merge_right {α : Type} (le : α → α → Bool) :
    ∀ (xs ys : List α), List.Sublist ys (List.merge xs ys le)
  | [], ys => by simp
  | x :: xs, [] => by simp
  | x :: xs, y :: ys => by
    rw [List.cons_merge_cons]
    split
    · exact (sublist_merge_right le xs (y :: ys)).cons x
    · exact (sublist_merge_right le (x :: xs) ys).cons₂ y
termination_by xs ys => xs.length + ys.length

/-- Merging two lists in nulls-last shape keeps the nulls-last shape,
provided the order is transitive, a null key never precedes anything, a
present key always precedes a null key, and present keys are totally
comparable. -/
theorem pairwise_merge_nullsLastKey {α : Type} (le : α → α → Bool) (N : α → Bool)
    (htrans : ∀ a b c, le a b = true → le b c = true → le a c = true)
    (hnull : ∀ a b, N a = true → le a b = false)
    (hpn : ∀ a b, N a = false → N b = true → le a b = true)
    (htot : ∀ a b, N a = false → N b = false → le a b = true ∨ le b a = true) :
    ∀ (xs ys : List α), xs.Pairwise (nullsLastKey le N) → ys.Pairwise (nullsLastKey le N) →
      (List.merge xs ys le).Pairwise (nullsLastKey le N)
  | [], ys, _, hy => by simpa using hy
  | x :: xs, [], hx, _ => by simpa using hx
  | x :: xs, y :: ys, hx, hy => by
    rw [List.cons_merge_cons]
    split
    case isTrue h =>
      refine List.Pairwise.cons ?_
        (pairwise_merge_nullsLastKey le N htrans hnull hpn htot xs (y :: ys)
          (List.pairwise_cons.mp hx).2 hy)
      intro z hz
      rw [List.mem_merge] at hz
      rcases hz with hz | hz
      · exact List.rel_of_pairwise_cons hx hz
      · rcases List.mem_cons.mp hz with rfl | hz
        · exact Or.inr h
        · rcases List.rel_of_pairwise_cons hy hz with hNz | hyz
          · exact Or.inl hNz
          · exact Or.inr (htrans x y z h hyz)
    case isFalse h =>
      have hyx : nullsLastKey le N y x := by
        by_cases hNx : N x = true
        · exact Or.inl hNx
        · rw [Bool.not_eq_true] at hNx
          by_cases hNy : N y = true
          · exact absurd (hpn x y hNx hNy) h
          · rw [Bool.not_eq_true] at hNy
            rcases htot x y hNx hNy with hxy | hyx
            · exact absurd hxy h
            · exact Or.inr hyx
      refine List.Pairwise.cons ?_
        (pairwise_merge_nullsLastKey le N htrans hnull hpn htot (x :: xs) ys hx
          (List.pairwise_cons.mp hy).2)
      intro z hz
      rw [List.mem_merge] at hz
      rcases hz with hz | hz
      · rcases List.mem_cons.mp hz with rfl | hz
        · exact hyx
        · rcases List.rel_of_pairwise_cons hx hz with hNz | hxz
          · exact Or.inl hNz
          · rcases hyx with hNx | hyx'
            · exact absurd hxz (by rw [hnull x z hNx]; simp)
            · exact Or.inr (htrans y x z hyx' hxz)
      · exact List.rel_of_pairwise_cons hy hz
termination_by xs ys => xs.length + ys.length

/-- A merge-sorted list is in nulls-last shape: every element is followed
only by elements it precedes under the order or by null-keyed elements. -/
theorem pairwise_mergeSort_nullsLastKey {α : Type} (le : α → α → Bool) (N : α → Bool)
    (htrans : ∀ a b c, le a b = true → le b c = true → le a c = true)
    (hnull : ∀ a b, N a = true → le a b = false)
    (hpn : ∀ a b, N a = false → N b = true → le a b = true)
    (htot : ∀ a b, N a = false → N b = false → le a b = true ∨ le b a = true) :
    ∀ (l : List α), (List.mergeSort l le).Pairwise (nullsLastKey le N)
  | [] => by simp
  | [a] => by simp
  | a :: b :: xs => by
    have h1 : (List.splitInTwo ⟨a :: b :: xs, rfl⟩).1.1.length < xs.length + 1 + 1 := by
      simp [List.splitInTwo_fst]; omega
    have h2 : (List.splitInTwo ⟨a :: b :: xs, rfl⟩).2.1.length < xs.length + 1 + 1 := by
      simp [List.splitInTwo_snd]; omega
    rw [List.mergeSort]
    exact pairwise_merge_nullsLastKey le N htrans hnull hpn htot _ _
      (pairwise_mergeSort_nullsLastKey le N htrans hnull hpn htot _)
      (pairwise_mergeSort_nullsLastKey le N htrans hnull hpn htot _)
termination_by l => l.length

/-- Merging keeps a designated left element before a designated right
element, as long as the left element and everything before it on the left
precede the right element under the order. -/
theorem pair_sublist_merge_mid {α : Type} (le : α → α → Bool) (a b : α) :
    ∀ (xs₁ xs₂ ys : List α), b ∈ ys → (∀ x ∈ xs₁, le x b = true) → le a b = true →
      List.Sublist [a, b] (List.merge (xs₁ ++ a :: xs₂) ys le)
  | _, _, [], hb, _, _ => absurd hb (List.not_mem_nil b)
  | [], xs₂, y :: ys, hb, hx, hab => by
    simp only [List.nil_append]
    rw [List.cons_merge_cons]
    split
    case isTrue h =>
      have hbm : b ∈ List.merge xs₂ (y :: ys) le := List.mem_merge.mpr (Or.inr hb)
      exact (List.singleton_sublist.mpr hbm).cons₂ a
    case isFalse h =>
      rcases List.mem_cons.mp hb with rfl | hb'
      · exact absurd hab h
      · simpa using (pair_sublist_merge_mid le a b [] xs₂ ys hb' hx hab).cons y
  | x :: xs₁, xs₂, y :: ys, hb, hx, hab => by
    rw [List.cons_append, List.cons_merge_cons]
    split
    case isTrue h =>
      exact (pair_sublist_merge_mid le a b xs₁ xs₂ (y :: ys) hb
        (fun z hz => hx z (List.mem_cons_of_mem x hz)) hab).cons x
    case isFalse h =>
      rcases List.mem_cons.mp hb with rfl | hb'
      · exact absurd (hx x (List.mem_cons_self x xs₁)) h
      · exact (pair_sublist_merge_mid le a b (x :: xs₁) xs₂ ys hb' hx hab).cons y
termination_by xs₁ _ ys => xs₁.length + ys.length

/-- Stability of merge sort for a genuinely tied pair under an order with
an absorbing null class: if the earlier element has a present key and
precedes the later one, the pair keeps its relative order. -/
theorem tie_pair_sublist_mergeSort {α : Type} (le : α → α → Bool) (N : α → Bool)
    (htrans : ∀ a b c, le a b = true → le b c = true → le a c = true)
    (hnull : ∀ a b, N a = true → le a b = false)
    (hpn : ∀ a b, N a = false → N b = true → le a b = true)
    (htot : ∀ a b, N a = false → N b = false → le a b = true ∨ le b a = true)
    (a b : α) (hNa : N a = false) (hab : le a b = true) :
    ∀ (l : List α), List.Sublist [a, b] l → List.Sublist [a, b] (List.mergeSort l le)
  | [], h => by simp at h
  | [x], h => by
    have hlen := h.length_le
    simp at hlen
  | x :: y :: xs, h => by
    have h1 : (List.splitInTwo ⟨x :: y :: xs, rfl⟩).1.1.length < xs.length + 1 + 1 := by
      simp [List.splitInTwo_fst]; omega
    have h2 : (List.splitInTwo ⟨x :: y :: xs, rfl⟩).2.1.length < xs.length + 1 + 1 := by
      simp [List.splitInTwo_snd]; omega
    rw [List.mergeSort]
    have hsplit : (List.splitInTwo ⟨x :: y :: xs, rfl⟩).1.1 ++
        (List.splitInTwo ⟨x :: y :: xs, rfl⟩).2.1 = x :: y :: xs :=
      List.splitInTwo_fst_append_splitInTwo_snd (⟨x :: y :: xs, rfl⟩ :
        { l : List α // l.length = xs.length + 1 + 1 })
    rw [← hsplit, List.sublist_append_iff] at h
    obtain ⟨u, v, huv, hu, hv⟩ := h
    rcases u with _ | ⟨a', u⟩
    · rw [List.nil_append] at huv
      rw [← huv] at hv
      exact (tie_pair_sublist_mergeSort le N htrans hnull hpn htot a b hNa hab _ hv).trans
        (sublist_merge_right le _ _)
    · rcases u with _ | ⟨b', u⟩
      · rw [List.cons_append, List.nil_append] at huv
        injection huv with ha' hv'
        subst ha'
        rw [← hv'] at hv
        have ha : a ∈ List.mergeSort (List.splitInTwo ⟨x :: y :: xs, rfl⟩).1.1 le :=
          List.mem_mergeSort.mpr (List.singleton_sublist.mp hu)
        have hb : b ∈ List.mergeSort (List.splitInTwo ⟨x :: y :: xs, rfl⟩).2.1 le :=
          List.mem_mergeSort.mpr (List.singleton_sublist.mp hv)
        obtain ⟨xs₁, xs₂, hdecomp⟩ := List.append_of_mem ha
        have hP := pairwise_mergeSort_nullsLastKey le N htrans hnull hpn htot
          (List.splitInTwo ⟨x :: y :: xs, rfl⟩).1.1
        rw [hdecomp] at hP
        have hx : ∀ z ∈ xs₁, le z b = true := by
          intro z hz
          rcases (List.pairwise_append.mp hP).2.2 z hz a (List.mem_cons_self a xs₂) with hNa' | hza
          · rw [hNa] at hNa'
            exact absurd hNa' (by simp)
          · exact htrans z a b hza hab
        rw [hdecomp]
        exact pair_sublist_merge_mid le a b xs₁ xs₂ _ hb hx hab
      · rcases u with _ | ⟨c', u⟩
        · simp only [List.cons_append, List.nil_append] at huv
          injection huv with ha' hrest
          injection hrest with hb' hv'
          subst ha'
          subst hb'
          exact (tie_pair_sublist_mergeSort le N htrans hnull hpn htot a b hNa hab _ hu).trans
            (sublist_merge_left le _ _)
        · simp at huv
termination_by l _ => l.length

/-- Unfolding lemma: the boolean precedence holds exactly when the
comparator result is non-positive. -/
theorem courseLE_iff (config : SortConfig) (a b : Course) :
    courseLE config a b = true ↔ compareCourses config a b ≤ 0 := by
  simp [courseLE]

/-- Unfolding lemma: the comparator on the name attribute. -/
theorem compareCourses_name (dir : SortDirection) (a b : Course) :
    compareCourses ⟨SortAttribute.name, dir⟩ a b =
      strCompare a.name b.name * (if dir = SortDirection.asc then 1 else -1) :=
  rfl

/-- Unfolding lemma: the comparator on a numeric attribute. -/
theorem compareCourses_num (attr : SortAttribute) (h : attr ≠ SortAttribute.name)
    (dir : SortDirection) (a b : Course) :
    compareCourses ⟨attr, dir⟩ a b =
      numCompare (if dir = SortDirection.asc then 1 else -1) (numVal attr a) (numVal attr b) := by
  cases attr <;> first | exact absurd rfl h | rfl

/-- Unfolding lemma: key absence on a numeric attribute. -/
theorem keyAbsent_num (attr : SortAttribute) (h : attr ≠ SortAttribute.name)
    (dir : SortDirection) (c : Course) :
    keyAbsent ⟨attr, dir⟩ c = (numVal attr c).isNone := by
  cases attr <;> first | exact absurd rfl h | rfl

/-- The direction multiplier is 1 or -1. -/
theorem ord_cases (dir : SortDirection) :
    (if dir = SortDirection.asc then (1 : ℚ) else -1) = 1 ∨
    (if dir = SortDirection.asc then (1 : ℚ) else -1) = -1 := by
  cases dir <;> simp

/-- A non-positive string comparison means the first string is not
greater. -/
theorem strCompare_nonpos_iff (a b : String) : strCompare a b ≤ 0 ↔ a ≤ b := by
  unfold strCompare
  split_ifs with h1 h2
  · constructor
    · exact fun _ => le_of_lt h1
    · intro _; norm_num
  · constructor
    · intro h; norm_num at h
    · intro h; exact absurd h2 (not_lt.mpr h)
  · have heq : a = b := le_antisymm (not_lt.mp h2) (not_lt.mp h1)
    simp [heq]

/-- A non-negative string comparison means the second string is not
greater. -/
theorem strCompare_nonneg_iff (a b : String) : 0 ≤ strCompare a b ↔ b ≤ a := by
  unfold strCompare
  split_ifs with h1 h2
  · constructor
    · intro h; norm_num at h
    · intro h; exact absurd h1 (not_lt.mpr h)
  · constructor
    · exact fun _ => le_of_lt h2
    · intro _; norm_num
  · have heq : a = b := le_antisymm (not_lt.mp h2) (not_lt.mp h1)
    simp [heq]

/-- A zero string comparison means the strings are equal. -/
theorem strCompare_eq_zero_iff (a b : String) : strCompare a b = 0 ↔ a = b := by
  unfold strCompare
  split_ifs with h1 h2
  · constructor
    · intro h; norm_num at h
    · intro h; subst h; exact absurd h1 (lt_irrefl a)
  · constructor
    · intro h; norm_num at h
    · intro h; subst h; exact absurd h2 (lt_irrefl a)
  · have heq : a = b := le_antisymm (not_lt.mp h2) (not_lt.mp h1)
    simp [heq]

/-- Transitivity of the non-positive numeric comparison. -/
theorem numCompare_trans (ord : ℚ) (hord : ord = 1 ∨ ord = -1) (x y z : Option ℚ)
    (h1 : numCompare ord x y ≤ 0) (h2 : numCompare ord y z ≤ 0) :
    numCompare ord x z ≤ 0 := by
  match x, y, z with
  | none, _, _ => norm_num [numCompare] at h1
  | some a, none, _ => norm_num [numCompare] at h2
  | some a, some b, none => norm_num [numCompare]
  | some a, some b, some c =>
    simp only [numCompare] at h1 h2 ⊢
    rcases hord with rfl | rfl
    · linarith
    · linarith

/-- Totality of the numeric comparison on present values. -/
theorem numCompare_total (ord : ℚ) (hord : ord = 1 ∨ ord = -1) (x y : ℚ) :
    numCompare ord (some x) (some y) ≤ 0 ∨ numCompare ord (some y) (some x) ≤ 0 := by
  simp only [numCompare]
  rcases hord with rfl | rfl <;> rcases le_total x y with h | h
  · left; linarith
  · right; linarith
  · right; linarith
  · left; linarith

/-- A zero numeric comparison forces both values present and makes the
comparison zero in both directions. -/
theorem numCompare_tie (ord : ℚ) (hord : ord = 1 ∨ ord = -1) (x y : Option ℚ)
    (h : numCompare ord x y = 0) :
    x.isNone = false ∧ y.isNone = false ∧ numCompare ord y x = 0 := by
  match x, y with
  | none, _ => norm_num [numCompare] at h
  | some a, none => norm_num [numCompare] at h
  | some a, some b =>
    refine ⟨rfl, rfl, ?_⟩
    simp only [numCompare] at h ⊢
    rcases hord with rfl | rfl <;> linarith

/-- The direction multiplier at asc is literally 1. -/
theorem ord_asc : (if SortDirection.asc = SortDirection.asc then (1 : ℚ) else -1) = 1 := by
  norm_num

/-- The direction multiplier at desc is literally -1. -/
theorem ord_desc : (if SortDirection.desc = SortDirection.asc then (1 : ℚ) else -1) = -1 := by
  norm_num
  intro h
  exact SortDirection.noConfusion h

/-- The comparator-induced precedence is transitive. -/
theorem courseLE_trans (config : SortConfig) :
    ∀ a b c : Course, courseLE config a b = true → courseLE config b c = true →
      courseLE config a c = true := by
  obtain ⟨attr, dir⟩ := config
  intro a b c h1 h2
  rw [courseLE_iff] at h1 h2 ⊢
  by_cases hn : attr = SortAttribute.name
  · subst hn
    rw [compareCourses_name] at h1 h2 ⊢
    cases dir
    · rw [ord_asc, mul_one] at h1 h2 ⊢
      rw [strCompare_nonpos_iff] at h1 h2 ⊢
      exact le_trans h1 h2
    · rw [ord_desc, mul_neg_one, neg_nonpos] at h1 h2 ⊢
      rw [strCompare_nonneg_iff] at h1 h2 ⊢
      exact le_trans h2 h1
  · rw [compareCourses_num attr hn] at h1 h2 ⊢
    exact numCompare_trans _ (ord_cases dir) _ _ _ h1 h2

/-- A course with an absent sort key never precedes anything. -/
theorem courseLE_absent (config : SortConfig) :
    ∀ a b : Course, keyAbsent config a = true → courseLE config a b = false := by
  obtain ⟨attr, dir⟩ := config
  intro a b hA
  by_cases hn : attr = SortAttribute.name
  · subst hn
    exact absurd hA (by simp [keyAbsent])
  · rw [keyAbsent_num attr hn, Option.isNone_iff_eq_none] at hA
    simp only [courseLE, compareCourses_num attr hn, hA, numCompare]
    norm_num

/-- A course with a present sort key precedes one with an absent key. -/
theorem courseLE_present_absent (config : SortConfig) :
    ∀ a b : Course, keyAbsent config a = false → keyAbsent config b = true →
      courseLE config a b = true := by
  obtain ⟨attr, dir⟩ := config
  intro a b hP hA
  by_cases hn : attr = SortAttribute.name
  · subst hn
    exact absurd hA (by simp [keyAbsent])
  · rw [keyAbsent_num attr hn, Option.isNone_iff_eq_none] at hA
    rw [keyAbsent_num attr hn] at hP
    have hne : numVal attr a ≠ none := by
      intro hnone
      rw [hnone] at hP
      simp at hP
    obtain ⟨v, hv⟩ := Option.ne_none_iff_exists'.mp hne
    rw [courseLE_iff, compareCourses_num attr hn, hA, hv]
    norm_num [numCompare]

/-- The precedence is total on courses with present sort keys. -/
theorem courseLE_total (config : SortConfig) :
    ∀ a b : Course, keyAbsent config a = false → keyAbsent config b = false →
      courseLE config a b = true ∨ courseLE config b a = true := by
  obtain ⟨attr, dir⟩ := config
  intro a b hPa hPb
  by_cases hn : attr = SortAttribute.name
  · subst hn
    rw [courseLE_iff, courseLE_iff, compareCourses_name, compareCourses_name]
    cases dir
    · rw [ord_asc, mul_one, mul_one, strCompare_nonpos_iff, strCompare_nonpos_iff]
      exact le_total a.name b.name
    · rw [ord_desc, mul_neg_one, mul_neg_one, neg_nonpos, neg_nonpos,
        strCompare_nonneg_iff, strCompare_nonneg_iff]
      exact le_total b.name a.name
  · rw [keyAbsent_num attr hn] at hPa hPb
    have hnea : numVal attr a ≠ none := by
      intro hnone
      rw [hnone] at hPa
      simp at hPa
    have hneb : numVal attr b ≠ none := by
      intro hnone
      rw [hnone] at hPb
      simp at hPb
    obtain ⟨v, hv⟩ := Option.ne_none_iff_exists'.mp hnea
    obtain ⟨w, hw⟩ := Option.ne_none_iff_exists'.mp hneb
    rw [courseLE_iff, courseLE_iff, compareCourses_num attr hn, compareCourses_num attr hn,
      hv, hw]
    exact numCompare_total _ (ord_cases dir) v w

/-- A comparator tie forces both sort keys present and makes each course
precede the other. -/
theorem compare_tie_facts (config : SortConfig) (a b : Course)
    (h : compareCourses config a b = 0) :
    keyAbsent config a = false ∧ keyAbsent config b = false ∧
      courseLE config a b = true ∧ courseLE config b a = true := by
  obtain ⟨attr, dir⟩ := config
  by_cases hn : attr = SortAttribute.name
  · subst hn
    rw [compareCourses_name] at h
    have hz : strCompare a.name b.name = 0 := by
      rcases ord_cases dir with ho | ho <;> rw [ho] at h <;> linarith
    have hnames : a.name = b.name := (strCompare_eq_zero_iff _ _).mp hz
    refine ⟨rfl, rfl, ?_, ?_⟩ <;>
      rw [courseLE_iff, compareCourses_name] <;>
      rcases ord_cases dir with ho | ho <;>
      rw [ho] <;>
      simp [strCompare, hnames]
  · rw [compareCourses_num attr hn] at h
    obtain ⟨hxa, hxb, hrev⟩ := numCompare_tie _ (ord_cases dir) _ _ h
    refine ⟨?_, ?_, ?_, ?_⟩
    · rw [keyAbsent_num attr hn]; exact hxa
    · rw [keyAbsent_num attr hn]; exact hxb
    · rw [courseLE_iff, compareCourses_num attr hn, h]
    · rw [courseLE_iff, compareCourses_num attr hn, hrev]

/-- Claim C6 counterexample: two courses with an absent rating (for which
the comparator returns 1 in both directions, not 0) do not keep their
input order: the ascending rating sort of [unratedA, unratedB] is
[unratedB, unratedA]. -/
theorem c6_counterexample :
    sortCourses ⟨SortAttribute.rating, SortDirection.asc⟩ [unratedA, unratedB] =
      [unratedB, unratedA] ∧ unratedA ≠ unratedB := by
  constructor
  · show List.mergeSort [unratedA, unratedB]
      (courseLE ⟨SortAttribute.rating, SortDirection.asc⟩) = _
    rw [List.mergeSort]
    simp only [List.splitInTwo_fst, List.splitInTwo_snd]
    norm_num
    rw [List.cons_merge_cons]
    have hle : courseLE ⟨SortAttribute.rating, SortDirection.asc⟩ unratedA unratedB = false := by
      decide
    rw [hle]
    simp
  · decide

/-- Claim C6 as amended: sorting is stable for pairs the comparator
actually ties (result 0): two records with equal present numeric sort-key
values, or equal names under the name sort, keep their relative input
order; a pair of records whose numeric attribute is both absent is
compared as 1 in both directions, not tied, and its order is not
preserved. -/
theorem c6_amended (config : SortConfig) (l : List Course) (a b : Course)
    (hsub : List.Sublist [a, b] l) (htie : compareCourses config a b = 0) :
    List.Sublist [a, b] (sortCourses config l) := by
  obtain ⟨hNa, _, hab, _⟩ := compare_tie_facts config a b htie
  exact tie_pair_sublist_mergeSort (courseLE config) (keyAbsent config)
    (courseLE_trans config) (courseLE_absent config) (courseLE_present_absent config)
    (courseLE_total config) a b hNa hab l hsub

/-- Claim C6 witness: two courses with the same present rating keep their
relative order under the ascending rating sort of a three-course list. -/
theorem c6_witness :
    List.Sublist [ratedA, ratedB]
      (sortCourses ⟨SortAttribute.rating, SortDirection.asc⟩ [ratedA, ratedC, ratedB]) :=
  c6_amended ⟨SortAttribute.rating, SortDirection.asc⟩ [ratedA, ratedC, ratedB] ratedA ratedB
    (by decide) (by norm_num [compareCourses, numCompare, numVal, ratedA, ratedB])
